import Mathlib

/-!
Shallow embedding of the command-runner MCP server (Rust sources under
`src/`): the validation engine (`src/security.rs`), the request model and
transform pipeline (`src/request.rs`), the git tool adapter
(`src/tools/git.rs`), the tool driver (`src/server.rs`), and the
timeout dispatch of the executor (`src/executor.rs`).

Strings are modelled by Lean `String` (lists of characters; the sources are
ASCII so the byte/char distinction is irrelevant), machine integers by `Nat`,
`HashMap` by association lists, and `Result<(), ValidationError>` by
`Except ValidationError Unit`.
-/

namespace CommandRunner

/-- Embeds `enum ValidationError` from src/security.rs (lines 50-59). -/
inductive ValidationError where
  | ShellInjection : String → ValidationError
  | BlockedPath : String → ValidationError
  | FlagInjection : String → ValidationError
  | DangerousEnvVar : String → ValidationError
  | PathTraversal : String → ValidationError
  | RelativeWorkingDir : String → ValidationError
  | DisallowedSubcommand : String → String → ValidationError
deriving DecidableEq, Repr

instance {ε α : Type} [DecidableEq ε] [DecidableEq α] : DecidableEq (Except ε α) := fun a b =>
  match a, b with
  | .error e, .error e2 =>
      if h : e = e2 then .isTrue (by rw [h]) else .isFalse (by simp [h])
  | .error _, .ok _ => .isFalse (by simp)
  | .ok _, .error _ => .isFalse (by simp)
  | .ok v, .ok v2 =>
      if h : v = v2 then .isTrue (by rw [h]) else .isFalse (by simp [h])

/-- Embeds `SHELL_INJECTION_CHARS` from src/security.rs (lines 5-8). -/
def SHELL_INJECTION_CHARS : List Char :=
  [';', '|', '&', '$', '\x60', '(', ')', '\x7b', '\x7d', '[', ']', '<', '>',
   '\n', '\r', '\x27', '\x22', '\\', '*', '?', '!', '#', '\x00']

/-- Embeds `SHELL_INJECTION_CHARS_DISPLAY` from src/security.rs (line 11). -/
def SHELL_INJECTION_CHARS_DISPLAY : String :=
  "; | & $ \x60 ( ) \x7b \x7d [ ] < > \x27 \x22 \\ * ? ! #"

/-- Embeds `TRANSFORM_HINT` from src/security.rs (line 14). -/
def TRANSFORM_HINT : String :=
  "Use grep_pattern, head, tail, sort, or unique parameters to filter/transform output instead of shell operators."

/-- Embeds `impl Display for ValidationError` from src/security.rs (lines 61-111). -/
def ValidationError.render : ValidationError → String
  | .ShellInjection arg =>
      "Error: \x27" ++ arg ++ "\x27 contains invalid characters. Forbidden characters: "
        ++ SHELL_INJECTION_CHARS_DISPLAY ++ ". " ++ TRANSFORM_HINT
  | .BlockedPath path =>
      "Error: Reading path \x27" ++ path ++ "\x27 is not allowed"
  | .FlagInjection arg =>
      "Error: \x27" ++ arg ++ "\x27 looks like a flag (starts with \x27-\x27). Arguments cannot start with \x27-\x27 to prevent flag injection."
  | .DangerousEnvVar v =>
      "Error: Setting environment variable \x27" ++ v ++ "\x27 is not allowed for security reasons."
  | .PathTraversal path =>
      "Error: Path \x27" ++ path ++ "\x27 contains \x27..\x27, which is not allowed for security reasons."
  | .RelativeWorkingDir dir =>
      "Error: working_dir \x27" ++ dir ++ "\x27 must be an absolute path (starting with \x27/\x27)."
  | .DisallowedSubcommand sub allowed =>
      "Error: Subcommand \x27" ++ sub ++ "\x27 is not allowed. Allowed subcommands: " ++ allowed

/-- Embeds `contains_shell_injection` from src/security.rs (lines 120-122):
Rust `s.contains(SHELL_INJECTION_CHARS)` over a `&[char]` pattern is true
exactly when some character of `s` is in the slice. -/
def contains_shell_injection (s : String) : Bool :=
  s.data.any (fun c => SHELL_INJECTION_CHARS.contains c)

/-- Embeds `validate_argument` from src/security.rs (lines 126-131). -/
def validate_argument (arg : String) : Except ValidationError Unit :=
  if contains_shell_injection arg then
    .error (.ShellInjection arg)
  else
    .ok ()

/-- Embeds `is_flag_like` from src/security.rs (lines 134-136). -/
def is_flag_like (s : String) : Bool :=
  s.startsWith "-" && s != "-" && s != "--"

/-- Embeds `validate_not_flag` from src/security.rs (lines 140-145). -/
def validate_not_flag (arg : String) : Except ValidationError Unit :=
  if is_flag_like arg then
    .error (.FlagInjection arg)
  else
    .ok ()

/-- Embeds `DANGEROUS_ENV_VARS` from src/security.rs (lines 28-47). -/
def DANGEROUS_ENV_VARS : List String :=
  ["LD_PRELOAD", "LD_LIBRARY_PATH", "DYLD_INSERT_LIBRARIES", "DYLD_LIBRARY_PATH",
   "PATH", "HOME", "USER", "SHELL", "IFS", "BASH_ENV", "ENV", "CDPATH",
   "GLOBIGNORE", "BASH_FUNC_", "PS1", "PS2", "PS4", "PROMPT_COMMAND"]

/-- Boolean test that `pat` is a prefix of `s`; models Rust `str::starts_with`
(a byte prefix of valid UTF-8 is exactly a character prefix). -/
def strStartsWith (s pat : String) : Bool :=
  pat.data.isPrefixOf s.data

/-- Embeds `is_dangerous_env_var` from src/security.rs (lines 169-174).
Rust `to_uppercase` is modelled by per-character `Char.toUpper`; the
dangerous-name list is pure ASCII, where the two coincide. -/
def is_dangerous_env_var (name : String) : Bool :=
  let upper := String.mk (name.data.map Char.toUpper)
  DANGEROUS_ENV_VARS.any (fun dangerous => upper == dangerous || strStartsWith upper dangerous)

/-- Embeds `validate_env_var` from src/security.rs (lines 177-190). -/
def validate_env_var (name value : String) : Except ValidationError Unit :=
  if is_dangerous_env_var name then
    .error (.DangerousEnvVar name)
  else if contains_shell_injection name then
    .error (.ShellInjection name)
  else if contains_shell_injection value then
    .error (.ShellInjection value)
  else
    .ok ()

/-- Embeds the matching loop of `find_blocked_path_impl` from src/security.rs
(lines 194-219) for absolute input paths that do not exist on the filesystem:
for a path starting with the separator, the resolution step keeps the path
as-is, and `canonicalize` on a non-existent path fails so the fallback also
keeps it unchanged; what remains is the pure loop returning the first blocked
entry that equals the path or is a prefix of it followed by the separator. -/
def find_blocked_path_impl (path : String) (blocked_paths : List String) : Option String :=
  blocked_paths.find? (fun blocked => path == blocked || strStartsWith path (blocked ++ "/"))

/-! String helpers, defined by structural recursion over the character list so
that concrete instances evaluate inside the kernel. -/

/-- Splits a character list at every newline character, keeping empty pieces. -/
def linesAux : List Char → List Char → List (List Char)
  | acc, [] => [acc.reverse]
  | acc, c :: cs =>
      if c = '\n' then acc.reverse :: linesAux [] cs
      else linesAux (c :: acc) cs

/-- Models Rust `str::lines`, used by every transform stage in src/request.rs:
split on newline characters, drop the final empty piece produced by a
terminating newline, and strip one trailing carriage return from each line.
The empty string yields no lines. -/
def rustLines (s : String) : List String :=
  if s.data.isEmpty then []
  else
    let parts := linesAux [] s.data
    let parts := if s.data.getLast? == some '\n' then parts.dropLast else parts
    parts.map (fun l => String.mk (if l.getLast? == some '\r' then l.dropLast else l))

/-- Models Rust `Vec::join(sep)` / `slice::join`. -/
def joinSep (sep : String) : List String → String
  | [] => ""
  | [s] => s
  | s :: rest => s ++ sep ++ joinSep sep rest

/-- Models Rust `Vec::join("\n")` applied to the collected lines. -/
def joinNL (lines : List String) : String :=
  joinSep "\n" lines

/-- Strict lexicographic order on the character codepoints; on UTF-8 data this
is exactly Rust's byte-wise order on `&str`, which `lines.sort()` uses. -/
def listCharLt : List Char → List Char → Bool
  | [], [] => false
  | [], _ :: _ => true
  | _ :: _, [] => false
  | a :: as, b :: bs =>
      if a.toNat < b.toNat then true
      else if b.toNat < a.toNat then false
      else listCharLt as bs

/-- Strict string order used by the sort stage. -/
def strLt (a b : String) : Bool :=
  listCharLt a.data b.data

/-- Stable insertion of a line into a sorted list of lines. -/
def insertLine (x : String) : List String → List String
  | [] => [x]
  | y :: ys => if strLt y x then y :: insertLine x ys else x :: y :: ys

/-- Models `lines.sort()` from src/request.rs (line 158): a sorted permutation
of a list of strings is unique (equal strings are indistinguishable), so any
sorting algorithm produces the same list as Rust's sort. -/
def sortLines : List String → List String
  | [] => []
  | x :: xs => insertLine x (sortLines xs)

/-- Models the external `regex` crate dependency of src/request.rs: compiling
a pattern either fails with an error message or yields a predicate on lines
(`Regex::is_match`). The pipeline is embedded parametrically in this
function. -/
def RegexCompile : Type :=
  String → Except String (String → Bool)

/-- Embeds `enum Transformation` from src/request.rs (lines 20-26). -/
inductive Transformation where
  | Grep
  | Sort
  | Unique
  | Head
  | Tail
deriving DecidableEq, Repr

/-- Embeds `DEFAULT_TRANSFORM_ORDER` from src/request.rs (lines 29-35). -/
def DEFAULT_TRANSFORM_ORDER : List Transformation :=
  [.Grep, .Sort, .Unique, .Head, .Tail]

/-- Embeds `struct ToolRequest<T>` from src/request.rs (lines 40-84); the
environment `HashMap` is modelled as an association list. -/
structure ToolRequest (T : Type) where
  grep_pattern : Option String := none
  invert_grep : Option Bool := none
  head : Option Nat := none
  tail : Option Nat := none
  sort : Option Bool := none
  unique : Option Bool := none
  timeout_ms : Option Nat := none
  working_dir : Option String := none
  env : Option (List (String × String)) := none
  transform_order : Option (List Transformation) := none
  inner : T

/-- Embeds `struct ExecutionContext` from src/request.rs (lines 11-15); the
timeout duration is kept in milliseconds. -/
structure ExecutionContext where
  timeout : Option Nat := none
  working_dir : Option String := none
  env : Option (List (String × String)) := none

/-- Embeds `ToolRequest::DEFAULT_TIMEOUT_MS` from src/request.rs (line 94). -/
def DEFAULT_TIMEOUT_MS : Nat := 180000

/-- Embeds `ToolRequest::execution_context` from src/request.rs (lines 97-104). -/
def ToolRequest.execution_context {T : Type} (req : ToolRequest T) : ExecutionContext :=
  let timeout_ms := req.timeout_ms.getD DEFAULT_TIMEOUT_MS
  { timeout := some timeout_ms
    working_dir := req.working_dir
    env := req.env }

/-- Embeds `ToolRequest::apply_grep` from src/request.rs (lines 134-153),
parametric in the regex-compile function. -/
def ToolRequest.apply_grep {T : Type} (compile : RegexCompile) (req : ToolRequest T)
    (output : String) : String :=
  match req.grep_pattern with
  | some pattern =>
      match compile pattern with
      | .error e => "Error: Invalid grep pattern: " ++ e
      | .ok m =>
          let invert := req.invert_grep.getD false
          joinNL ((rustLines output).filter (fun line =>
            let matched := m line
            if invert then !matched else matched))
  | none => output

/-- Embeds `ToolRequest::apply_sort` from src/request.rs (lines 155-163). -/
def ToolRequest.apply_sort {T : Type} (req : ToolRequest T) (output : String) : String :=
  if req.sort.getD false then joinNL (sortLines (rustLines output))
  else output

/-- Loop of `ToolRequest::apply_unique`: drop a line equal to the previously
kept line. -/
def uniqueGo : Option String → List String → List String
  | _, [] => []
  | prev, l :: ls =>
      if prev == some l then uniqueGo prev ls
      else l :: uniqueGo (some l) ls

/-- Embeds `ToolRequest::apply_unique` from src/request.rs (lines 165-179). -/
def ToolRequest.apply_unique {T : Type} (req : ToolRequest T) (output : String) : String :=
  if req.unique.getD false then joinNL (uniqueGo none (rustLines output))
  else output

/-- Embeds `ToolRequest::apply_head` from src/request.rs (lines 181-188). -/
def ToolRequest.apply_head {T : Type} (req : ToolRequest T) (output : String) : String :=
  match req.head with
  | some n => joinNL ((rustLines output).take n)
  | none => output

/-- Embeds `ToolRequest::apply_tail` from src/request.rs (lines 190-203). -/
def ToolRequest.apply_tail {T : Type} (req : ToolRequest T) (output : String) : String :=
  match req.tail with
  | some n =>
      let lines := rustLines output
      let total := lines.length
      if total ≤ n then output
      else joinNL (lines.drop (total - n))
  | none => output

/-- Embeds the `match transform` dispatch inside `transform_output`
(src/request.rs lines 117-123). -/
def applyStage {T : Type} (compile : RegexCompile) (req : ToolRequest T) :
    Transformation → String → String
  | .Grep, r => req.apply_grep compile r
  | .Sort, r => req.apply_sort r
  | .Unique, r => req.apply_unique r
  | .Head, r => req.apply_head r
  | .Tail, r => req.apply_tail r

/-- Embeds the stage loop of `transform_output` (src/request.rs lines
114-131): apply the stage, then return early when the result starts with
the `Error:` marker. -/
def transformGo {T : Type} (compile : RegexCompile) (req : ToolRequest T) :
    List Transformation → String → String
  | [], result => result
  | t :: ts, result =>
      let r2 := applyStage compile req t result
      if strStartsWith r2 "Error:" then r2
      else transformGo compile req ts r2

/-- Embeds `ToolRequest::transform_output` from src/request.rs (lines 108-132). -/
def ToolRequest.transform_output {T : Type} (compile : RegexCompile) (req : ToolRequest T)
    (output : String) : String :=
  transformGo compile req (req.transform_order.getD DEFAULT_TRANSFORM_ORDER) output

/-- Embeds `impl Validatable for ToolRequest<T>` from src/request.rs (lines
86-90): validation of the wrapper delegates to the inner request's
validator and checks nothing else. -/
def ToolRequest.validate {T : Type} (validateInner : T → Except ValidationError Unit)
    (req : ToolRequest T) : Except ValidationError Unit :=
  validateInner req.inner

/-- Embeds `run_tool` from src/server.rs (lines 34-44): validate, derive the
context, execute and transform; the executor callback is a parameter, as in
the source. -/
def run_tool {T : Type} (validateInner : T → Except ValidationError Unit)
    (compile : RegexCompile) (req : ToolRequest T)
    (execute : T → ExecutionContext → String) : String :=
  match ToolRequest.validate validateInner req with
  | .error e => e.render
  | .ok _ =>
      let ctx := req.execution_context
      req.transform_output compile (execute req.inner ctx)

/-- Embeds `ALLOWED_GIT_SUBCOMMANDS` from src/tools/git.rs (line 10). -/
def ALLOWED_GIT_SUBCOMMANDS : List String :=
  ["status", "add", "commit", "checkout"]

/-- Embeds `struct GitRequest` from src/tools/git.rs (lines 14-20). -/
structure GitRequest where
  subcommand : String
  args : List String := []

/-- Loop of `GitRequest::validate` over the argument vector. -/
def validateArgsList : List String → Except ValidationError Unit
  | [] => .ok ()
  | a :: rest =>
      match validate_argument a with
      | .error e => .error e
      | .ok _ => validateArgsList rest

/-- Embeds `impl Validatable for GitRequest` from src/tools/git.rs (lines
22-43): an allow-list check on the subcommand (reported as `ShellInjection`),
then shell-injection checks on the subcommand and on every argument. -/
def GitRequest.validate (req : GitRequest) : Except ValidationError Unit :=
  if !(ALLOWED_GIT_SUBCOMMANDS.contains req.subcommand) then
    .error (.ShellInjection
      ("Subcommand \x27" ++ req.subcommand ++ "\x27 is not allowed. Allowed subcommands: "
        ++ joinSep ", " ALLOWED_GIT_SUBCOMMANDS))
  else
    match validate_argument req.subcommand with
    | .error e => .error e
    | .ok _ => validateArgsList req.args

/-- The two dispatch paths of `run_command` in src/executor.rs. -/
inductive ExecPath where
  | withTimeout : Nat → ExecPath
  | withoutTimeout : ExecPath
deriving DecidableEq, Repr

/-- Embeds the `match ctx.timeout` dispatch of `run_command` from
src/executor.rs (lines 30-33): a set timeout (in milliseconds) selects
`run_with_timeout`, an unset one selects `run_without_timeout`. -/
def run_command_path (ctx : ExecutionContext) : ExecPath :=
  match ctx.timeout with
  | some t => .withTimeout t
  | none => .withoutTimeout

/-- Boolean test that `pat` occurs as a contiguous substring of `l`. -/
def listHasSub (pat : List Char) : List Char → Bool
  | [] => pat.isEmpty
  | c :: rest => pat.isPrefixOf (c :: rest) || listHasSub pat rest

/-- Substring test on strings, used by the concrete witness regex engine. -/
def strContainsSub (s pat : String) : Bool :=
  listHasSub pat.data s.data

/-- Concrete regex engine used by witnesses: a pattern free of regex
metacharacters matches the lines containing it literally, and the
ill-formed pattern `[invalid` fails to compile, as in the `regex` crate. -/
def demoCompile : RegexCompile := fun pattern =>
  if pattern == "[invalid" then
    .error "regex parse error: unclosed character class"
  else
    .ok (fun line => strContainsSub line pattern)

/-- Constant executor callback used to observe whether the executor's result
reaches the caller. -/
def execA {T : Type} (_ : T) (_ : ExecutionContext) : String :=
  "executor ran A"

/-- A second constant executor callback, distinguishable from `execA`. -/
def execB {T : Type} (_ : T) (_ : ExecutionContext) : String :=
  "executor ran B"

/-- A git `status` request carrying the dangerous environment variable
`LD_PRELOAD` in its `env` map. -/
def reqWithDangerousEnv : ToolRequest GitRequest :=
  { env := some [("LD_PRELOAD", "/evil/lib.so")],
    inner := { subcommand := "status", args := [] } }

/-! Congruence of the pipeline in the regex engine: two engines that agree on
the request's grep pattern (same compile error, or extensionally equal
matchers) drive every stage identically. -/

/-- Agreement of two regex engines at one pattern. -/
def compileAgreeAt (c1 c2 : RegexCompile) (p : String) : Prop :=
  (∃ e, c1 p = .error e ∧ c2 p = .error e) ∨
  (∃ m1 m2, c1 p = .ok m1 ∧ c2 p = .ok m2 ∧ ∀ l, m1 l = m2 l)

lemma apply_grep_congr {T : Type} {c1 c2 : RegexCompile} (req : ToolRequest T)
    (h : ∀ p, req.grep_pattern = some p → compileAgreeAt c1 c2 p) (r : String) :
    req.apply_grep c1 r = req.apply_grep c2 r := by
  cases hp : req.grep_pattern with
  | none => simp [ToolRequest.apply_grep, hp]
  | some p =>
      rcases h p hp with ⟨e, h1, h2⟩ | ⟨m1, m2, h1, h2, hm⟩
      · simp [ToolRequest.apply_grep, hp, h1, h2]
      · simp only [ToolRequest.apply_grep, hp, h1, h2]
        congr 1
        apply List.filter_congr
        intro l _
        simp [hm l]

lemma applyStage_congr {T : Type} {c1 c2 : RegexCompile} (req : ToolRequest T)
    (h : ∀ p, req.grep_pattern = some p → compileAgreeAt c1 c2 p)
    (t : Transformation) (r : String) :
    applyStage c1 req t r = applyStage c2 req t r := by
  cases t <;> try rfl
  exact apply_grep_congr req h r

lemma transformGo_congr {T : Type} {c1 c2 : RegexCompile} (req : ToolRequest T)
    (h : ∀ p, req.grep_pattern = some p → compileAgreeAt c1 c2 p)
    (order : List Transformation) (r : String) :
    transformGo c1 req order r = transformGo c2 req order r := by
  induction order generalizing r with
  | nil => rfl
  | cons t ts ih =>
      simp only [transformGo]
      rw [applyStage_congr req h t r]
      split
      · rfl
      · exact ih _

lemma transform_output_congr {T : Type} {c1 c2 : RegexCompile} (req : ToolRequest T)
    (h : ∀ p, req.grep_pattern = some p → compileAgreeAt c1 c2 p) (output : String) :
    req.transform_output c1 output = req.transform_output c2 output :=
  transformGo_congr req h _ output

/-- The boolean shell-injection test holds exactly when some character of the
string is blacklisted. -/
lemma contains_shell_injection_iff (s : String) :
    contains_shell_injection s = true ↔ ∃ c ∈ s.data, c ∈ SHELL_INJECTION_CHARS := by
  simp [contains_shell_injection, List.any_eq_true, List.contains, List.elem_iff]

/-- Claim C1: the spec requires a request whose `env` mapping contains a
dangerous variable name such as `LD_PRELOAD` to be rejected with a
`DangerousEnvVar` error before any subprocess runs, but validation of a
`ToolRequest` delegates exclusively to the inner request and never inspects
`env`: the request below passes validation, its execution context carries
`LD_PRELOAD`, and the executor's result reaches the caller — even though the
repository's own `validate_env_var` classifies exactly this variable as
dangerous. -/
theorem dangerous_env_var_not_rejected :
    (∀ (T : Type) (vI : T → Except ValidationError Unit) (req : ToolRequest T)
        (e1 e2 : Option (List (String × String))),
        ToolRequest.validate vI { req with env := e1 } =
          ToolRequest.validate vI { req with env := e2 }) ∧
    ToolRequest.validate GitRequest.validate reqWithDangerousEnv = .ok () ∧
    is_dangerous_env_var "LD_PRELOAD" = true ∧
    validate_env_var "LD_PRELOAD" "/evil/lib.so" = .error (.DangerousEnvVar "LD_PRELOAD") ∧
    reqWithDangerousEnv.execution_context.env = some [("LD_PRELOAD", "/evil/lib.so")] ∧
    run_tool GitRequest.validate demoCompile reqWithDangerousEnv execA = "executor ran A" :=
  ⟨fun _ _ _ _ _ => rfl, by decide, by decide, by decide, by decide, by decide⟩

/-- Claim C2: whenever validation of a request fails, `run_tool` returns the
rendering of the validation error and its result does not depend on the
executor callback, so no subprocess output is ever consulted. -/
theorem run_tool_validation_error (T : Type) (vI : T → Except ValidationError Unit)
    (compile : RegexCompile) (req : ToolRequest T) (e : ValidationError)
    (h : ToolRequest.validate vI req = .error e)
    (ex1 ex2 : T → ExecutionContext → String) :
    run_tool vI compile req ex1 = e.render ∧
    run_tool vI compile req ex1 = run_tool vI compile req ex2 := by
  unfold run_tool
  rw [h]
  exact ⟨rfl, rfl⟩

/-- Witness for claim C2 at the git request with disallowed subcommand
`push`. -/
theorem run_tool_validation_error_witness :
    ToolRequest.validate GitRequest.validate
        ({ inner := { subcommand := "push", args := [] } } : ToolRequest GitRequest) =
      .error (.ShellInjection
        "Subcommand \x27push\x27 is not allowed. Allowed subcommands: status, add, commit, checkout") ∧
    run_tool GitRequest.validate demoCompile
        ({ inner := { subcommand := "push", args := [] } } : ToolRequest GitRequest) execA =
      (ValidationError.ShellInjection
        "Subcommand \x27push\x27 is not allowed. Allowed subcommands: status, add, commit, checkout").render ∧
    run_tool GitRequest.validate demoCompile
        ({ inner := { subcommand := "push", args := [] } } : ToolRequest GitRequest) execA =
      run_tool GitRequest.validate demoCompile
        ({ inner := { subcommand := "push", args := [] } } : ToolRequest GitRequest) execB :=
  ⟨by decide,
    (run_tool_validation_error GitRequest GitRequest.validate demoCompile
      { inner := { subcommand := "push", args := [] } }
      (.ShellInjection
        "Subcommand \x27push\x27 is not allowed. Allowed subcommands: status, add, commit, checkout")
      (by decide) execA execB).1,
    (run_tool_validation_error GitRequest GitRequest.validate demoCompile
      { inner := { subcommand := "push", args := [] } }
      (.ShellInjection
        "Subcommand \x27push\x27 is not allowed. Allowed subcommands: status, add, commit, checkout")
      (by decide) execA execB).2⟩

/-- Claim C3: a git request whose subcommand is outside the allow-list
`status, add, commit, checkout` fails validation, and `run_tool` on it does
not depend on the executor callback, so the external git program is never
invoked. -/
theorem git_disallowed_subcommand (treq : ToolRequest GitRequest) (compile : RegexCompile)
    (h : ALLOWED_GIT_SUBCOMMANDS.contains treq.inner.subcommand = false) :
    ToolRequest.validate GitRequest.validate treq =
      .error (.ShellInjection
        ("Subcommand \x27" ++ treq.inner.subcommand
          ++ "\x27 is not allowed. Allowed subcommands: "
          ++ joinSep ", " ALLOWED_GIT_SUBCOMMANDS)) ∧
    (∀ ex1 ex2 : GitRequest → ExecutionContext → String,
        run_tool GitRequest.validate compile treq ex1 =
          run_tool GitRequest.validate compile treq ex2) := by
  have hv : ToolRequest.validate GitRequest.validate treq =
      .error (.ShellInjection
        ("Subcommand \x27" ++ treq.inner.subcommand
          ++ "\x27 is not allowed. Allowed subcommands: "
          ++ joinSep ", " ALLOWED_GIT_SUBCOMMANDS)) := by
    have hnot : ¬ (treq.inner.subcommand ∈ ALLOWED_GIT_SUBCOMMANDS) := by
      simpa using h
    simp [ToolRequest.validate, GitRequest.validate, hnot]
  refine ⟨hv, fun ex1 ex2 => ?_⟩
  unfold run_tool
  rw [hv]

/-- Witness for claim C3 at subcommand `push`. -/
theorem git_disallowed_subcommand_witness :
    ALLOWED_GIT_SUBCOMMANDS.contains "push" = false ∧
    ToolRequest.validate GitRequest.validate
        ({ inner := { subcommand := "push", args := [] } } : ToolRequest GitRequest) =
      .error (.ShellInjection
        ("Subcommand \x27push\x27 is not allowed. Allowed subcommands: "
          ++ joinSep ", " ALLOWED_GIT_SUBCOMMANDS)) ∧
    run_tool GitRequest.validate demoCompile
        ({ inner := { subcommand := "push", args := [] } } : ToolRequest GitRequest) execA =
      run_tool GitRequest.validate demoCompile
        ({ inner := { subcommand := "push", args := [] } } : ToolRequest GitRequest) execB :=
  ⟨by decide,
    (git_disallowed_subcommand { inner := { subcommand := "push", args := [] } }
      demoCompile (by decide)).1,
    (git_disallowed_subcommand { inner := { subcommand := "push", args := [] } }
      demoCompile (by decide)).2 execA execB⟩

/-- Claim C4: blocked-path matching is exact match or prefix-plus-separator
match: with `/blocked` configured, the path `/blocked/x` matches (returning
`/blocked`), as does `/blocked` itself, while `/blocked2/x` matches no
entry. -/
theorem blocked_path_prefix_separator_matching :
    find_blocked_path_impl "/blocked/x" ["/blocked"] = some "/blocked" ∧
    find_blocked_path_impl "/blocked" ["/blocked"] = some "/blocked" ∧
    find_blocked_path_impl "/blocked2/x" ["/blocked"] = none := by
  refine ⟨by decide, by decide, by decide⟩

/-- Claim C5: `validate_argument` rejects with a `ShellInjection` error
carrying the argument exactly when the argument contains a blacklisted shell
metacharacter, and accepts every argument free of them. -/
theorem validate_argument_shell_injection_spec (s : String) :
    ((∃ c ∈ s.data, c ∈ SHELL_INJECTION_CHARS) →
        validate_argument s = .error (.ShellInjection s)) ∧
    ((∀ c ∈ s.data, c ∉ SHELL_INJECTION_CHARS) →
        validate_argument s = .ok ()) := by
  constructor
  · intro h
    have hc : contains_shell_injection s = true := (contains_shell_injection_iff s).mpr h
    simp [validate_argument, hc]
  · intro h
    have hc : contains_shell_injection s = false := by
      cases hb : contains_shell_injection s with
      | false => rfl
      | true =>
          rcases (contains_shell_injection_iff s).mp hb with ⟨c, hcs, hmem⟩
          exact absurd hmem (h c hcs)
    simp [validate_argument, hc]

/-- Witness for claim C5 at the rejected string `a;b` and the accepted
string `hello`. -/
theorem validate_argument_shell_injection_witness :
    validate_argument "a;b" = .error (.ShellInjection "a;b") ∧
    validate_argument "hello" = .ok () :=
  ⟨(validate_argument_shell_injection_spec "a;b").1 (by decide),
    (validate_argument_shell_injection_spec "hello").2 (by decide)⟩

/-- Request with grep pattern `1`, head count 2, plan `[Head, Grep]`. -/
def reqHeadGrep : ToolRequest Unit :=
  { grep_pattern := some "1", head := some 2,
    transform_order := some [.Head, .Grep], inner := () }

/-- Request with grep pattern `1`, head count 2, plan `[Grep, Head]`. -/
def reqGrepHead : ToolRequest Unit :=
  { grep_pattern := some "1", head := some 2,
    transform_order := some [.Grep, .Head], inner := () }

/-- Request whose grep pattern is the ill-formed regex `[invalid`, with a
sort stage scheduled after the grep stage. -/
def reqInvalidGrep : ToolRequest Unit :=
  { grep_pattern := some "[invalid", sort := some true,
    transform_order := some [.Grep, .Sort], inner := () }

/-- Request with grep pattern `keep` and sorting enabled, under the default
plan. -/
def reqGrepSortDemo : ToolRequest Unit :=
  { grep_pattern := some "keep", sort := some true, inner := () }

/-- Claim C6: the pipeline is order-sensitive. For any regex engine whose
matcher for the pattern `1` keeps exactly the lines containing `1`, the plan
`[Head, Grep]` with head count 2 on the four lines `line1..line4` yields
exactly `line1`, and there is an input on which `[Grep, Head]` with the same
parameters yields a different result than `[Head, Grep]`. -/
theorem transform_pipeline_order_sensitive (compile : RegexCompile) (m : String → Bool)
    (hc : compile "1" = .ok m) (hm : ∀ l, m l = strContainsSub l "1") :
    ToolRequest.transform_output compile reqHeadGrep "line1\nline2\nline3\nline4" = "line1" ∧
    ∃ input : String,
      ToolRequest.transform_output compile reqGrepHead input ≠
        ToolRequest.transform_output compile reqHeadGrep input := by
  have key : ∀ (req2 : ToolRequest Unit) (input : String),
      req2.grep_pattern = some "1" →
      req2.transform_output compile input = req2.transform_output demoCompile input := by
    intro req2 input hp2
    apply transform_output_congr
    intro p hp
    rw [hp2] at hp
    have hp1 : p = "1" := (Option.some_inj.mp hp).symm
    subst hp1
    right
    exact ⟨m, fun line => strContainsSub line "1", hc, rfl, hm⟩
  constructor
  · rw [key reqHeadGrep "line1\nline2\nline3\nline4" rfl]
    decide
  · refine ⟨"line1\nline2\nline11\nline12", ?_⟩
    rw [key reqGrepHead "line1\nline2\nline11\nline12" rfl,
        key reqHeadGrep "line1\nline2\nline11\nline12" rfl]
    decide

/-- Witness for claim C6 at the literal-substring regex engine. -/
theorem transform_pipeline_order_sensitive_witness :
    ToolRequest.transform_output demoCompile reqHeadGrep "line1\nline2\nline3\nline4" = "line1" ∧
    ToolRequest.transform_output demoCompile reqGrepHead "line1\nline2\nline11\nline12" ≠
      ToolRequest.transform_output demoCompile reqHeadGrep "line1\nline2\nline11\nline12" :=
  ⟨(transform_pipeline_order_sensitive demoCompile
      (fun line => strContainsSub line "1") rfl (fun _ => rfl)).1,
    by decide⟩

/-- Claim C7: a stage whose result carries the `Error:` marker makes the
pipeline return that text at once, applying no later stage of the plan; in
particular a grep stage whose pattern fails to compile produces exactly the
`Error: Invalid grep pattern:` text, which carries the marker. -/
theorem error_marker_short_circuit {T : Type} (compile : RegexCompile) (req : ToolRequest T)
    (t : Transformation) (ts : List Transformation) (r : String) :
    (strStartsWith (applyStage compile req t r) "Error:" = true →
        transformGo compile req (t :: ts) r = applyStage compile req t r) ∧
    (∀ pat e, req.grep_pattern = some pat → compile pat = .error e →
        ToolRequest.apply_grep compile req r = "Error: Invalid grep pattern: " ++ e ∧
        strStartsWith ("Error: Invalid grep pattern: " ++ e) "Error:" = true) := by
  constructor
  · intro h
    simp [transformGo, h]
  · intro pat e hp he
    refine ⟨by simp [ToolRequest.apply_grep, hp, he], ?_⟩
    unfold strStartsWith
    simp only [List.isPrefixOf_iff_prefix, String.data_append]
    exact List.IsPrefix.trans (List.isPrefixOf_iff_prefix.mp (by decide))
      (List.prefix_append _ _)

/-- Witness for claim C7 at the invalid pattern `[invalid` followed by a
sort stage. -/
theorem error_marker_short_circuit_witness :
    strStartsWith (applyStage demoCompile reqInvalidGrep .Grep "line2\nline1") "Error:" = true ∧
    transformGo demoCompile reqInvalidGrep [.Grep, .Sort] "line2\nline1" =
      applyStage demoCompile reqInvalidGrep .Grep "line2\nline1" ∧
    ToolRequest.apply_grep demoCompile reqInvalidGrep "line2\nline1" =
      "Error: Invalid grep pattern: regex parse error: unclosed character class" :=
  ⟨by decide,
    (error_marker_short_circuit demoCompile reqInvalidGrep .Grep [.Sort] "line2\nline1").1
      (by decide),
    ((error_marker_short_circuit demoCompile reqInvalidGrep .Grep [.Sort] "line2\nline1").2
      "[invalid" "regex parse error: unclosed character class" rfl rfl).1⟩

/-- Claim C8: the tail stage with count `n` at least the line count returns
the text unchanged; with `n` below the line count it returns exactly the
last `n` lines, joined in their original relative order (the kept list is
the length-`n` suffix of the line list). -/
theorem apply_tail_spec {T : Type} (req : ToolRequest T) (n : Nat) (text : String)
    (h : req.tail = some n) :
    ((rustLines text).length ≤ n → ToolRequest.apply_tail req text = text) ∧
    (n < (rustLines text).length →
        ToolRequest.apply_tail req text =
          joinNL ((rustLines text).drop ((rustLines text).length - n)) ∧
        ((rustLines text).drop ((rustLines text).length - n)).length = n ∧
        (rustLines text).take ((rustLines text).length - n)
            ++ (rustLines text).drop ((rustLines text).length - n) = rustLines text) := by
  unfold ToolRequest.apply_tail
  rw [h]
  constructor
  · intro hle
    simp [hle]
  · intro hlt
    have hnle : ¬ ((rustLines text).length ≤ n) := Nat.not_le.mpr hlt
    refine ⟨by simp [hnle], ?_, List.take_append_drop _ _⟩
    rw [List.length_drop]
    exact Nat.sub_sub_self (Nat.le_of_lt hlt)

/-- Witness for claim C8 at tail counts 9 and 2 over four lines. -/
theorem apply_tail_spec_witness :
    ToolRequest.apply_tail ({ tail := some 9, inner := () } : ToolRequest Unit)
        "line1\nline2\nline3\nline4" = "line1\nline2\nline3\nline4" ∧
    ToolRequest.apply_tail ({ tail := some 2, inner := () } : ToolRequest Unit)
        "line1\nline2\nline3\nline4" =
      joinNL ((rustLines "line1\nline2\nline3\nline4").drop
        ((rustLines "line1\nline2\nline3\nline4").length - 2)) :=
  ⟨(apply_tail_spec ({ tail := some 9, inner := () } : ToolRequest Unit) 9
      "line1\nline2\nline3\nline4" rfl).1 (by decide),
    ((apply_tail_spec ({ tail := some 2, inner := () } : ToolRequest Unit) 2
      "line1\nline2\nline3\nline4" rfl).2 (by decide)).1⟩

/-- Claim C9: the execution context derived from a request always carries a
timeout — the requested `timeout_ms` when present, 180000 milliseconds
otherwise — so the executor's dispatch always takes the with-timeout path
and never the no-timeout path. -/
theorem execution_context_timeout {T : Type} (req : ToolRequest T) :
    (ToolRequest.execution_context req).timeout =
      some (req.timeout_ms.getD DEFAULT_TIMEOUT_MS) ∧
    (∀ ms, req.timeout_ms = some ms →
        (ToolRequest.execution_context req).timeout = some ms) ∧
    (req.timeout_ms = none →
        (ToolRequest.execution_context req).timeout = some 180000) ∧
    run_command_path (ToolRequest.execution_context req) =
      .withTimeout (req.timeout_ms.getD DEFAULT_TIMEOUT_MS) ∧
    run_command_path (ToolRequest.execution_context req) ≠ .withoutTimeout := by
  refine ⟨rfl, ?_, ?_, rfl, ?_⟩
  · intro ms hms
    simp [ToolRequest.execution_context, hms]
  · intro hnone
    simp [ToolRequest.execution_context, hnone, DEFAULT_TIMEOUT_MS]
  · simp [run_command_path, ToolRequest.execution_context]

/-- Witness for claim C9 at a request with `timeout_ms` 5000 and one
without. -/
theorem execution_context_timeout_witness :
    (ToolRequest.execution_context
        ({ timeout_ms := some 5000, inner := () } : ToolRequest Unit)).timeout = some 5000 ∧
    (ToolRequest.execution_context
        ({ inner := () } : ToolRequest Unit)).timeout = some 180000 ∧
    run_command_path (ToolRequest.execution_context
        ({ inner := () } : ToolRequest Unit)) ≠ .withoutTimeout :=
  ⟨(execution_context_timeout
      ({ timeout_ms := some 5000, inner := () } : ToolRequest Unit)).2.1 5000 rfl,
    (execution_context_timeout ({ inner := () } : ToolRequest Unit)).2.2.1 rfl,
    (execution_context_timeout ({ inner := () } : ToolRequest Unit)).2.2.2.2⟩

/-- Claim C10: the `Error:` short-circuit test runs only after a stage was
applied, never before the first one: the stage loop always applies the head
stage of the plan, whatever the incoming text; concretely, on an input that
already begins with `Error:`, an active grep stage is still applied and a
later sort stage runs on its marker-free result. -/
theorem error_check_after_stage_not_before :
    (∀ (T : Type) (compile : RegexCompile) (req : ToolRequest T) (t : Transformation)
        (ts : List Transformation) (r : String),
        transformGo compile req (t :: ts) r =
          if strStartsWith (applyStage compile req t r) "Error:" then
            applyStage compile req t r
          else transformGo compile req ts (applyStage compile req t r)) ∧
    strStartsWith "Error: boom\nkeep2\nkeep1" "Error:" = true ∧
    ToolRequest.transform_output demoCompile reqGrepSortDemo "Error: boom\nkeep2\nkeep1" =
      "keep1\nkeep2" ∧
    ToolRequest.transform_output demoCompile reqGrepSortDemo "Error: boom\nkeep2\nkeep1" ≠
      "Error: boom\nkeep2\nkeep1" :=
  ⟨fun _ _ _ _ _ _ => rfl, by decide, by decide, by decide⟩

end CommandRunner
